import Mathlib

/-!
Verification development for the gmaps_scraper_server repository.

The Python sources (gmaps_scraper_server/extractor.py and
gmaps_scraper_server/scraper.py) are embedded shallowly below:

* decoded JSON values (the output of json.loads) become the inductive
  type `JValue`; Python's None doubles as the JSON null, so a function
  that in Python "returns None" on failure is modelled with `Option`
  and the observation `pyRes` collapses a successfully reached JSON
  null into `none`, exactly as a Python `is not None` test would;
* the keys handed to `safe_get` become `PyKey`: Python `bool` is a
  subclass of `int`, so a `bool` key passes `isinstance(key, int)` and
  indexes a list at position 0 or 1;
* code that can raise (the `", ".join` in get_complete_address) returns
  `Except String _`, everything else is total;
* `json.loads` is an external library routine, so the two inner decodes
  of parse_json_data take an abstract `decode : String → Option JValue`
  parameter (`none` models json.JSONDecodeError);
* the regular expression of extract_initial_json (literal state marker,
  optional whitespace, `=`, optional whitespace, a lazy capture, literal
  flags marker, DOTALL) is implemented directly on character lists:
  leftmost start position, shortest capture;
* the Playwright page is an external capability: the DOM extractor's
  pure normalisation steps are modelled over the ordered lists of texts
  its selectors would yield, and the two link-discovery loops over the
  per-iteration observations (visible hrefs, scroll height, end marker).
-/

/-- Decoded JSON value as produced by Python's json module: null, bool,
number, string, array, or string-keyed object (insertion ordered). -/
inductive JValue where
  | null : JValue
  | bool (b : Bool) : JValue
  | num (n : Int) : JValue
  | str (s : String) : JValue
  | arr (xs : List JValue) : JValue
  | obj (m : List (String × JValue)) : JValue

/-- Keys passed to safe_get: Python ints, bools (a subclass of int) and
strings. -/
inductive PyKey where
  | int (i : Int) : PyKey
  | bool (b : Bool) : PyKey
  | str (s : String) : PyKey

/-- Models Python's `isinstance(key, int)` view of a key: an int is
itself, True is 1 and False is 0, a string is not an int. -/
def keyAsInt : PyKey → Option Int
  | .int i => some i
  | .bool b => some (if b then 1 else 0)
  | .str _ => none

/-- First-match lookup in a string-keyed object, modelling
`key in current` / `current[key]` on a dict produced by json.loads. -/
def objLookup : List (String × JValue) → String → Option JValue
  | [], _ => none
  | (k, v) :: rest, s => if k = s then some v else objLookup rest s

/-- Embedding of extractor.safe_get (extractor.py lines 4-30): walk the
keys left to right; on a list a key must look like an int and be in
range, on a dict the key must be a present string; any other situation
makes the whole call return None. -/
def safe_get : JValue → List PyKey → Option JValue
  | current, [] => some current
  | current, key :: keys =>
    match current with
    | .arr xs =>
      match keyAsInt key with
      | some i =>
        if 0 ≤ i ∧ i < (xs.length : Int) then safe_get (xs.getD i.toNat .null) keys
        else none
      | none => none
    | .obj m =>
      match key with
      | .str s =>
        match objLookup m s with
        | some nxt => safe_get nxt keys
        | none => none
      | _ => none
    | _ => none

/-- One step of the positional walk, as the specification describes it:
an Array descends only on an in-range integer index (Python bools count
as integers), an Object descends only on a present key, everything else
is absent. -/
def stepGet (v : JValue) (key : PyKey) : Option JValue :=
  match v with
  | .arr xs =>
    match keyAsInt key with
    | some i =>
      if 0 ≤ i ∧ i < (xs.length : Int) then some (xs.getD i.toNat .null) else none
    | none => none
  | .obj m =>
    match key with
    | .str s => objLookup m s
    | _ => none
  | _ => none

/-- Observation of a safe_get result by Python code: `None` denotes both
a failed walk and a successfully reached JSON null, so an `is not None`
test sees `none` in both cases. -/
def pyRes (o : Option JValue) : Option JValue :=
  match o with
  | some .null => none
  | o => o

/-- Python truthiness of a decoded JSON value (used by `filter(None, ·)`
and by `if not data_blob`). -/
def jTruthy : JValue → Bool
  | .null => false
  | .bool b => b
  | .num n => n != 0
  | .str s => s != ""
  | .arr xs => !xs.isEmpty
  | .obj m => !m.isEmpty

/-- Extracts the underlying strings when every element is a string;
`none` when some element is not a string. -/
def strsOf : List JValue → Option (List String)
  | [] => some []
  | (.str s) :: rest => (strsOf rest).map (fun ss => s :: ss)
  | _ :: _ => none

/-- Models Python's `sep.join(items)`: raises TypeError when an item is
not a string, otherwise concatenates with the separator. -/
def pyJoin (sep : String) (items : List JValue) : Except String String :=
  match strsOf items with
  | some ss => .ok (String.intercalate sep ss)
  | none => .error ("TypeError")

/-- Embedding of extractor.get_main_name (offset 11). -/
def get_main_name (data : JValue) : Option JValue := safe_get data [PyKey.int 11]

/-- Embedding of extractor.get_place_id (offset 10). -/
def get_place_id (data : JValue) : Option JValue := safe_get data [PyKey.int 10]

/-- Embedding of extractor.get_gps_coordinates (extractor.py lines
201-207): latitude from [9][2], longitude from [9][3]; a dict with both
when both are not None, otherwise None. -/
def get_gps_coordinates (data : JValue) : Option JValue :=
  match pyRes (safe_get data [PyKey.int 9, PyKey.int 2]),
        pyRes (safe_get data [PyKey.int 9, PyKey.int 3]) with
  | some lat, some lon => some (.obj [(("latitude"), lat), (("longitude"), lon)])
  | _, _ => none

/-- Embedding of extractor.get_complete_address (extractor.py lines
209-215): `", ".join(filter(None, parts))` when offset 2 is a list,
returning None for a falsy (empty) join result; the join raises
TypeError when a kept element is not a string. -/
def get_complete_address (data : JValue) : Except String (Option String) :=
  match safe_get data [PyKey.int 2] with
  | some (.arr address_parts) =>
    match pyJoin (", ") (address_parts.filter jTruthy) with
    | .ok formatted => .ok (if formatted = "" then none else some formatted)
    | .error e => .error e
  | _ => .ok none

/-- Embedding of extractor.get_rating (offsets [4][7]). -/
def get_rating (data : JValue) : Option JValue := safe_get data [PyKey.int 4, PyKey.int 7]

/-- Embedding of extractor.get_reviews_count (offsets [4][8]). -/
def get_reviews_count (data : JValue) : Option JValue := safe_get data [PyKey.int 4, PyKey.int 8]

/-- Embedding of extractor.get_website (offsets [7][0]). -/
def get_website (data : JValue) : Option JValue := safe_get data [PyKey.int 7, PyKey.int 0]

/-- Embedding of extractor.get_categories (offset 13). -/
def get_categories (data : JValue) : Option JValue := safe_get data [PyKey.int 13]

/-- Embedding of extractor.get_thumbnail (offsets [14][0][0][6][0]). -/
def get_thumbnail (data : JValue) : Option JValue :=
  safe_get data [PyKey.int 14, PyKey.int 0, PyKey.int 0, PyKey.int 6, PyKey.int 0]

/-- Substring test on character lists, modelling Python's `in` on
strings. -/
def hasSubstr : List Char → List Char → Bool
  | [], pat => pat.isPrefixOf ([] : List Char)
  | c :: rest, pat => pat.isPrefixOf (c :: rest) || hasSubstr rest pat

/-- The fixed icon-asset marker of the phone pattern. -/
def phoneMarker : List Char := ("call_googblue").toList

/-- Models `re.sub(r'\D', '', s)`: keep only the digits (ASCII digits;
the payloads in scope contain only those). -/
def stripNonDigits (s : String) : String := String.mk (s.toList.filter Char.isDigit)

/-- The pattern test of _find_phone_recursively on one list: length at
least 2, first element a string containing the marker, second element a
string whose digit-stripped form is non-empty, yielding that form. -/
def phoneHit : List JValue → Option String
  | (.str icon) :: (.str phone) :: _ =>
    if hasSubstr icon.toList phoneMarker then
      (if stripNonDigits phone ≠ "" then some (stripNonDigits phone) else none)
    else none
  | _ => none

mutual

/-- Embedding of extractor._find_phone_recursively (extractor.py lines
230-261): on a list, return the pattern hit if any, otherwise recurse
into the elements in order; on a dict recurse into the values in order;
a falsy (empty-string) recursive result is skipped exactly as Python's
`if found_phone:` would. -/
def _find_phone_recursively : JValue → Option String
  | .arr xs =>
    match phoneHit xs with
    | some p => some p
    | none => findPhoneList xs
  | .obj m => findPhoneObj m
  | _ => none

/-- Recursion of _find_phone_recursively over list elements. -/
def findPhoneList : List JValue → Option String
  | [] => none
  | item :: rest =>
    match _find_phone_recursively item with
    | some s => if s = "" then findPhoneList rest else some s
    | none => findPhoneList rest

/-- Recursion of _find_phone_recursively over dict values. -/
def findPhoneObj : List (String × JValue) → Option String
  | [] => none
  | (_, v) :: rest =>
    match _find_phone_recursively v with
    | some s => if s = "" then findPhoneObj rest else some s
    | none => findPhoneObj rest

end

/-- Embedding of extractor.get_phone_number (extractor.py lines
263-274). -/
def get_phone_number (data_blob : JValue) : Option String :=
  match _find_phone_recursively data_blob with
  | some found => if found = "" then none else some found
  | none => none

mutual

/-- Depth-first (pre-order) enumeration of the nodes of a decoded JSON
value: a node first, then its children; objects contribute their values
in order. -/
def preorder : JValue → List JValue
  | .arr xs => .arr xs :: preorderList xs
  | .obj m => .obj m :: preorderObj m
  | v => [v]

/-- Pre-order enumeration of a list of values. -/
def preorderList : List JValue → List JValue
  | [] => []
  | x :: rest => preorder x ++ preorderList rest

/-- Pre-order enumeration of the values of an object. -/
def preorderObj : List (String × JValue) → List JValue
  | [] => []
  | (_, v) :: rest => preorder v ++ preorderObj rest

end

/-- The phone pattern viewed as a predicate on a traversal node: only an
Array node can hit. -/
def nodeHit : JValue → Option String
  | .arr xs => phoneHit xs
  | _ => none

/-- Models `isinstance(x, (list, dict))`. -/
def isNested : JValue → Bool
  | .arr _ => true
  | .obj _ => true
  | _ => false

/-- The qualification test of _scan_for_data_blob on one element: a list
of length at least 10 with at least 3 nested (list or dict) elements. -/
def blobCandidate : JValue → Bool
  | .arr item => 10 ≤ item.length && 3 ≤ item.countP isNested
  | _ => false

/-- Index-order scan of _scan_for_data_blob over the elements. -/
def scanList : List JValue → Option JValue
  | [] => none
  | item :: rest => if blobCandidate item then some item else scanList rest

/-- Embedding of extractor._scan_for_data_blob (extractor.py lines
158-186): first element that is a list of length ≥ 10 containing at
least 3 nested structures; None when the input is not a list or no
element qualifies. -/
def _scan_for_data_blob : JValue → Option JValue
  | .arr data_list => scanList data_list
  | _ => none

/-- Literal application-state assignment marker of the locator regex. -/
def stateMarker : List Char := (";window.APP_INITIALIZATION_STATE").toList

/-- Literal flags marker that terminates the lazy capture. -/
def flagsMarker : List Char := (";window.APP_FLAGS").toList

/-- Drops leading whitespace, modelling a greedy regex whitespace run
(and one side of Python's str.strip). -/
def dropPyWs : List Char → List Char
  | [] => []
  | c :: rest => if c.isWhitespace then dropPyWs rest else c :: rest

/-- Models Python's str.strip on a character list: whitespace removed
from both ends. -/
def pyStripChars (cs : List Char) : List Char :=
  ((dropPyWs ((dropPyWs cs).reverse)).reverse)

/-- Models Python's str.strip. -/
def pyStrip (s : String) : String := String.mk (pyStripChars s.toList)

/-- Lazy capture of the locator regex: shortest prefix after which the
flags marker follows; none when the marker never occurs. -/
def captureUntil : List Char → Option (List Char)
  | [] => if flagsMarker.isPrefixOf ([] : List Char) then some [] else none
  | c :: rest =>
    if flagsMarker.isPrefixOf (c :: rest) then some []
    else (captureUntil rest).map (fun cap => c :: cap)

/-- After the state marker the regex requires optional whitespace, `=`,
optional whitespace, then the lazy capture. -/
def matchAfterState (cs : List Char) : Option (List Char) :=
  match dropPyWs cs with
  | '=' :: rest => captureUntil (dropPyWs rest)
  | _ => none

/-- Leftmost search of the locator regex over the markup: try every
start position in order; at a position where the state marker matches
but the remainder does not, continue at the next position, exactly as
re.search backtracks. -/
def searchState : List Char → Option (List Char)
  | [] => none
  | c :: rest =>
    if stateMarker.isPrefixOf (c :: rest) then
      match matchAfterState ((c :: rest).drop stateMarker.length) with
      | some cap => some cap
      | none => searchState rest
    else searchState rest

/-- Test whether a (stripped) capture starts with `[` or the opening
curly bracket, modelling `startswith(('[', chr(123)))`. -/
def startsWithBracket (cs : List Char) : Bool :=
  match cs with
  | c :: _ => c = '[' || c = Char.ofNat 123
  | [] => false

/-- Embedding of extractor.extract_initial_json (extractor.py lines
32-50): locate the capture between the two markers; keep it only when
its stripped form starts like JSON. -/
def extract_initial_json (html_content : String) : Option String :=
  match searchState html_content.toList with
  | some cap =>
    if startsWithBracket (pyStripChars cap) then some (String.mk cap) else none
  | none => none

/-- The anti-hijacking prefix token: close-paren, close-bracket, closing
curly bracket, apostrophe, newline. -/
def prefixToken : List Char := [')', ']', Char.ofNat 125, Char.ofNat 39, Char.ofNat 10]

/-- The guarded initial navigation of parse_json_data: the decoded value
must be a list of length > 3 whose element 3 is a list of length > 6;
yields that inner element 6. -/
def initialPath36 : JValue → Option JValue
  | .arr initial =>
    if 3 < initial.length then
      match initial.getD 3 .null with
      | .arr inner3 => if 6 < inner3.length then some (inner3.getD 6 .null) else none
      | _ => none
    else none
  | _ => none

/-- Embedding of extractor.parse_json_data (extractor.py lines 52-155)
over an abstract `decode` standing for json.loads. Case 1 returns a
list found at [3][6] directly; case 2a strips the anti-hijacking prefix
(`split(prefix, 1)[1]` equals dropping the prefix, which was just
checked to start the string) and looks at offset 6 of the re-decoded
value, falling back to the heuristic scan; case 2b decodes a plain
JSON string the same way; everything else is None. -/
def parse_json_data (decode : String → Option JValue) (json_str : String) : Option JValue :=
  if json_str = "" then none
  else
    match decode json_str with
    | none => none
    | some initial_data =>
      match initialPath36 initial_data with
      | none => none
      | some data_blob_or_str =>
        match data_blob_or_str with
        | .arr xs => some (.arr xs)
        | .str s =>
          if prefixToken.isPrefixOf s.toList then
            match decode (String.mk (s.toList.drop prefixToken.length)) with
            | none => none
            | some actual_data =>
              match actual_data with
              | .arr l =>
                if 6 < l.length then
                  match safe_get (JValue.arr l) [PyKey.int 6] with
                  | some (.arr ys) => some (.arr ys)
                  | _ => _scan_for_data_blob (JValue.arr l)
                else _scan_for_data_blob (JValue.arr l)
              | _ => none
          else
            if startsWithBracket (pyStrip s).toList then
              match decode (pyStrip s) with
              | none => none
              | some parsed_data =>
                match parsed_data with
                | .arr l =>
                  if 6 < l.length then
                    match l.getD 6 .null with
                    | .arr ys => some (.arr ys)
                    | _ => _scan_for_data_blob (JValue.arr l)
                  else _scan_for_data_blob (JValue.arr l)
                | _ => none
            else none
        | _ => none

/-- A present field becomes a one-entry association, an absent one
nothing; the record keeps Python's dict insertion order. -/
def optField (k : String) (v : Option JValue) : List (String × JValue) :=
  match v with
  | some x => [(k, x)]
  | none => []

/-- Embedding of the field-assembly stage of extractor.extract_place_data
(extractor.py lines 307-325), applied to an already parsed data blob:
build the dict in source order, keep the fields that are not None, and
turn an empty dict into None. The address join is the only accessor
that can raise; its exception escapes this stage. -/
def extract_place_data_core (data_blob : JValue) :
    Except String (Option (List (String × JValue))) :=
  match get_complete_address data_blob with
  | .error e => .error e
  | .ok address =>
    let place_details :=
      optField ("name") (pyRes (get_main_name data_blob)) ++
      optField ("place_id") (pyRes (get_place_id data_blob)) ++
      optField ("coordinates") (get_gps_coordinates data_blob) ++
      optField ("address") (address.map JValue.str) ++
      optField ("rating") (pyRes (get_rating data_blob)) ++
      optField ("reviews_count") (pyRes (get_reviews_count data_blob)) ++
      optField ("categories") (pyRes (get_categories data_blob)) ++
      optField ("website") (pyRes (get_website data_blob)) ++
      optField ("phone") ((get_phone_number data_blob).map JValue.str) ++
      optField ("thumbnail") (pyRes (get_thumbnail data_blob))
    .ok (if place_details.isEmpty then none else some place_details)

/-- Embedding of extractor.extract_place_data (extractor.py lines
293-325): locate, parse (a falsy parse result counts as failure), then
assemble the fields. -/
def extract_place_data (decode : String → Option JValue) (html_content : String) :
    Except String (Option (List (String × JValue))) :=
  match extract_initial_json html_content with
  | none => .ok none
  | some json_str =>
    if json_str = "" then .ok none
    else
      match parse_json_data decode json_str with
      | none => .ok none
      | some data_blob =>
        if jTruthy data_blob then extract_place_data_core data_blob else .ok none

/-- Embedding of one iteration of the per-link loop of
scraper.scrape_google_maps (scraper.py lines 410-435): run
extract_place_data on the fetched markup; on a record, attach the link
and append; on None or an exception (both caught by the loop), leave
the result list unchanged and move on. No other extractor is
consulted. -/
def process_link (decode : String → Option JValue)
    (results : List (List (String × JValue))) (link : String) (html_content : String) :
    List (List (String × JValue)) :=
  match extract_place_data decode html_content with
  | .ok (some place_data) => results ++ [place_data ++ [(("link"), JValue.str link)]]
  | _ => results

/-- Name selection of extract_place_data_dom (extractor.py lines
368-397) over the ordered inner texts of the heading candidates: first
text that is non-empty, strips to a non-empty string of length > 2;
the stripped text is the name. -/
def firstGoodName : List String → Option String
  | [] => none
  | text :: rest =>
    if text ≠ "" ∧ pyStrip text ≠ "" ∧ 2 < (pyStrip text).length then some (pyStrip text)
    else firstGoodName rest

/-- The two-tier name strategy of extract_place_data_dom: h1 texts
first, then the heading-role texts. -/
def dom_extract_name (h1_texts heading_texts : List String) : Option String :=
  match firstGoodName h1_texts with
  | some name => some name
  | none => firstGoodName heading_texts

/-- Character class kept by the DOM phone normalisation `[^\d+]`:
digits and every plus sign, wherever it occurs. -/
def isPhoneKeep (c : Char) : Bool := c.isDigit || c == '+'

/-- Models `re.sub(r'[^\d+]', '', text)` of the DOM phone step: keep
digits and every plus sign. -/
def pyCleanPhone (text : String) : String :=
  String.mk (text.toList.filter isPhoneKeep)

/-- Phone selection of extract_place_data_dom (extractor.py lines
517-541) over the ordered inner texts of the phone-selector matches:
first text whose cleaned form is non-empty and at least 7 characters
long wins. -/
def dom_extract_phone : List String → Option String
  | [] => none
  | text :: rest =>
    if pyCleanPhone text ≠ "" ∧ 7 ≤ (pyCleanPhone text).length then some (pyCleanPhone text)
    else dom_extract_phone rest

/-- One scroll iteration's observation of the results feed: the place
hrefs currently visible, the scroll height, and whether the
end-of-list marker is present. -/
structure FeedObs where
  links : List String
  height : Int
  endMarker : Bool

/-- Set-union update of the accumulated links, modelling
`place_links.update(current_links)` on a deduplicated list. -/
def addLinks (place_links : List String) (current : List String) : List String :=
  current.foldl (fun acc x => if acc.contains x then acc else acc ++ [x]) place_links

/-- Models `len(current_links - place_links) > 0`. -/
def hasNew (place_links current : List String) : Bool :=
  current.any (fun x => !(place_links.contains x))

/-- The feed loop's limit test `max_places is not None and
len(place_links) >= max_places`. -/
def maxReachedFeed (max_places : Option Nat) (links : List String) : Bool :=
  match max_places with
  | some m => decide (m ≤ links.length)
  | none => false

/-- Embedding of the feed-based scrolling loop of scrape_google_maps
(scraper.py lines 355-394): per iteration merge the observed links;
when the caller-supplied maximum is reached, trim to that many and
stop; when the scroll height is unchanged, stop on the end marker, or
count a no-new-links stall up to 5; an exhausted observation list ends
the run with the links accumulated so far. -/
def feed_scroll_loop (max_places : Option Nat) :
    List FeedObs → List String → Int → Nat → List String
  | [], place_links, _, _ => place_links
  | ob :: rest, place_links, last_height, attempts =>
    let new_links_found := hasNew place_links ob.links
    let links2 := addLinks place_links ob.links
    if maxReachedFeed max_places links2 then links2.take (max_places.getD 0)
    else if ob.height = last_height then
      if ob.endMarker then links2
      else if !new_links_found then
        (if 5 ≤ attempts + 1 then links2
         else feed_scroll_loop max_places rest links2 last_height (attempts + 1))
      else feed_scroll_loop max_places rest links2 last_height 0
    else feed_scroll_loop max_places rest links2 ob.height 0

/-- The feed strategy started on an empty set with the initially
observed scroll height. -/
def collect_place_links_feed (max_places : Option Nat) (initial_height : Int)
    (obs : List FeedObs) : List String :=
  feed_scroll_loop max_places obs [] initial_height 0

/-- The global fallback's limit test `max_places and
len(place_links) >= max_places` (a 0 maximum is falsy). -/
def maxTrigGlobal (max_places : Option Nat) (links : List String) : Bool :=
  match max_places with
  | some m => decide (m ≠ 0) && decide (m ≤ links.length)
  | none => false

/-- Embedding of scraper.collect_place_links_global (scraper.py lines
212-266): at most 20 iterations; per iteration merge the observed
links; stop - without trimming - once the maximum is reached; stop
after 5 consecutive iterations without new links; an exhausted
observation list models the exception break. -/
def global_scroll_loop (max_places : Option Nat) :
    Nat → List (List String) → List String → Nat → List String
  | 0, _, place_links, _ => place_links
  | _ + 1, [], place_links, _ => place_links
  | fuel + 1, current :: rest, place_links, attempts =>
    let new_links_found := hasNew place_links current
    let links2 := addLinks place_links current
    if maxTrigGlobal max_places links2 then links2
    else if !new_links_found then
      (if 5 ≤ attempts + 1 then links2
       else global_scroll_loop max_places fuel rest links2 (attempts + 1))
    else global_scroll_loop max_places fuel rest links2 0

/-- The global fallback started on an empty set with its 20-iteration
budget. -/
def collect_place_links_global (max_places : Option Nat) (obs : List (List String)) :
    List String :=
  global_scroll_loop max_places 20 obs [] 0

def gpsBlob : JValue :=
  .arr [.null, .null, .null, .null, .null, .null, .null, .null, .null,
        .arr [.null, .null, .num 515, .num (-1)]]

/-- Spec-side address join: keep the non-empty components, join with a
comma-space, and treat an empty join as absence. -/
def joinNonEmpty (parts : List String) : Option String :=
  let formatted := String.intercalate (", ") (parts.filter (fun p => p != ""))
  if formatted = "" then none else some formatted

theorem strsOf_map_str (ss : List String) : strsOf (ss.map JValue.str) = some ss := by
  induction ss with
  | nil => rfl
  | cons s rest ih => simp [strsOf, ih]

theorem filter_jTruthy_str (strs : List String) :
    (strs.map JValue.str).filter jTruthy = (strs.filter (fun p => p != "")).map JValue.str := by
  induction strs with
  | nil => rfl
  | cons s rest ih =>
    by_cases h : s = "" <;> simp [jTruthy, h, ih, List.filter_cons]

/-- C10: safe_get treats a boolean key on a list as the integer index it
equals (False as 0, True as 1), descending when that index is in range
rather than rejecting the key as non-integer; concretely a True key on a
two-element list yields the second element. -/
theorem safe_get_bool_index :
    (∀ (xs : List JValue) (b : Bool) (keys : List PyKey),
      safe_get (.arr xs) (PyKey.bool b :: keys) =
        if (if b then 1 else 0) < xs.length then
          safe_get (xs.getD (if b then 1 else 0) .null) keys
        else none)
    ∧ safe_get (.arr [.str ("a"), .str ("b")]) [PyKey.bool true] = some (.str ("b")) := by
  constructor
  · intro xs b keys
    cases b
    · by_cases h : 0 < xs.length
      · have h0 : ((0:Int) ≤ 0 ∧ (0:Int) < (xs.length : Int)) := ⟨le_refl _, by exact_mod_cast h⟩
        simp [safe_get, keyAsInt, h, h0]
      · have h0 : ¬ ((0:Int) ≤ 0 ∧ (0:Int) < (xs.length : Int)) := by
          rintro ⟨-, h2⟩; exact h (by exact_mod_cast h2)
        simp [safe_get, keyAsInt, h, h0]
    · by_cases h : 1 < xs.length
      · have h0 : ((0:Int) ≤ 1 ∧ (1:Int) < (xs.length : Int)) := ⟨by norm_num, by exact_mod_cast h⟩
        simp [safe_get, keyAsInt, h, h0]
      · have h0 : ¬ ((0:Int) ≤ 1 ∧ (1:Int) < (xs.length : Int)) := by
          rintro ⟨-, h2⟩; exact h (by exact_mod_cast h2)
        simp [safe_get, keyAsInt, h, h0]
  · rfl

/-- C4: get_gps_coordinates yields a value exactly when both the [9][2]
walk and the [9][3] walk resolve to a (Python-observable) present
value, and in that case the result is the dict carrying exactly those
two resolved values; it can never hold a half pair. -/
theorem gps_coordinates_iff_both (data : JValue) :
    ((get_gps_coordinates data).isSome ↔
      ((pyRes (safe_get data [PyKey.int 9, PyKey.int 2])).isSome ∧
       (pyRes (safe_get data [PyKey.int 9, PyKey.int 3])).isSome))
    ∧ (∀ lat lon, pyRes (safe_get data [PyKey.int 9, PyKey.int 2]) = some lat →
        pyRes (safe_get data [PyKey.int 9, PyKey.int 3]) = some lon →
        get_gps_coordinates data = some (.obj [(("latitude"), lat), (("longitude"), lon)])) := by
  unfold get_gps_coordinates
  cases h2 : pyRes (safe_get data [PyKey.int 9, PyKey.int 2]) <;>
    cases h3 : pyRes (safe_get data [PyKey.int 9, PyKey.int 3]) <;> simp

/-- Witness for the coordinates theorem: a blob whose offset 9 holds the
pair at offsets 2 and 3 produces exactly that pair. -/
theorem gps_coordinates_iff_both_witness :
    get_gps_coordinates gpsBlob =
      some (.obj [(("latitude"), .num 515), (("longitude"), .num (-1))]) :=
  (gps_coordinates_iff_both gpsBlob).2 (.num 515) (.num (-1)) rfl rfl

/-- C5: on a payload whose offset-2 element is an array of strings,
get_complete_address joins the non-empty components with a comma-space
and returns absence (not the empty string) when nothing remains; when
offset 2 is not an array the result is absent. -/
theorem complete_address_join_spec :
    (∀ data strs, safe_get data [PyKey.int 2] = some (.arr (strs.map JValue.str)) →
      get_complete_address data = .ok (joinNonEmpty strs))
    ∧ (∀ data, (∀ parts, safe_get data [PyKey.int 2] ≠ some (.arr parts)) →
        get_complete_address data = .ok none) := by
  constructor
  · intro data strs h
    unfold get_complete_address
    rw [h]
    simp [filter_jTruthy_str, pyJoin, strsOf_map_str, joinNonEmpty]
  · intro data h
    unfold get_complete_address
    cases hs : safe_get data [PyKey.int 2] with
    | none => rfl
    | some v =>
      cases v with
      | arr parts => exact absurd hs (h parts)
      | null => rfl
      | bool b => rfl
      | num n => rfl
      | str s => rfl
      | obj m => rfl

/-- Witness for the address theorem: the spec's example list yields
"Main St, Springfield", and an all-empty list yields absence (not the
empty string). -/
theorem complete_address_join_spec_witness :
    get_complete_address
        (.arr [.null, .null,
               .arr [.str (""), .str ("Main St"), .str (""), .str ("Springfield")]]) =
      .ok (some ("Main St, Springfield"))
    ∧ get_complete_address (.arr [.null, .null, .arr [.str (""), .str ("")]]) = .ok none := by
  constructor
  · exact complete_address_join_spec.1 _ [(""), ("Main St"), (""), ("Springfield")] rfl
  · exact complete_address_join_spec.1 _ [(""), ("")] rfl

def scanExample : List JValue :=
  [.null, .null,
   .arr [.arr [], .null, .null, .null, .null],
   .null, .null,
   .arr [.arr [], .arr [], .arr [], .obj [], .null, .null, .null, .null, .null, .null,
         .null, .null]]

theorem scanList_some (xs : List JValue) (v : JValue) (h : scanList xs = some v) :
    ∃ i, i < xs.length ∧ xs.getD i .null = v ∧ blobCandidate v = true ∧
      ∀ j, j < i → blobCandidate (xs.getD j .null) = false := by
  induction xs with
  | nil => simp [scanList] at h
  | cons x rest ih =>
    rw [scanList] at h
    by_cases hc : blobCandidate x = true
    · rw [if_pos hc] at h
      injection h with hxv
      subst hxv
      exact ⟨0, by simp, by simp, hc, fun j hj => absurd hj (by omega)⟩
    · rw [if_neg hc] at h
      obtain ⟨i, hi, hv, hcand, hbefore⟩ := ih h
      refine ⟨i + 1, by simp only [List.length_cons]; omega, by simpa using hv, hcand, ?_⟩
      intro j hj
      cases j with
      | zero => simpa using hc
      | succ j => simpa using hbefore j (by omega)

theorem scanList_none (xs : List JValue) (h : ∀ x ∈ xs, blobCandidate x = false) :
    scanList xs = none := by
  induction xs with
  | nil => rfl
  | cons x rest ih =>
    have hx := h x (by simp)
    simp [scanList, hx, ih (fun y hy => h y (by simp [hy]))]

/-- C7: the heuristic scan returns the first element, in index order,
that is itself an array of length at least 10 with at least 3 nested
(array or object) elements, is absent when no element qualifies, and on
the spec's example (a length-5 candidate at index 2, a length-12
candidate with 4 nested elements at index 5) returns the element at
index 5. -/
theorem scan_first_qualifying :
    (∀ xs v, _scan_for_data_blob (.arr xs) = some v →
      ∃ i, i < xs.length ∧ xs.getD i .null = v ∧ blobCandidate v = true ∧
        ∀ j, j < i → blobCandidate (xs.getD j .null) = false)
    ∧ (∀ xs, (∀ x ∈ xs, blobCandidate x = false) → _scan_for_data_blob (.arr xs) = none)
    ∧ _scan_for_data_blob (.arr scanExample) = some (scanExample.getD 5 .null) := by
  refine ⟨fun xs v h => scanList_some xs v h, fun xs h => scanList_none xs h, rfl⟩

/-- Witness for the scan theorem: instantiating it at the example list
localises the returned blob at index 5. -/
theorem scan_first_qualifying_witness :
    ∃ i, i < scanExample.length ∧ scanExample.getD i .null = scanExample.getD 5 .null ∧
      blobCandidate (scanExample.getD 5 .null) = true ∧
      ∀ j, j < i → blobCandidate (scanExample.getD j .null) = false :=
  scan_first_qualifying.1 scanExample (scanExample.getD 5 .null) rfl

theorem safe_get_cons (d : JValue) (k : PyKey) (ks : List PyKey) :
    safe_get d (k :: ks) =
      match stepGet d k with
      | some v => safe_get v ks
      | none => none := by
  cases d with
  | arr xs =>
    cases hk : keyAsInt k with
    | some i =>
      simp only [safe_get, stepGet, hk]
      split
      · rfl
      · rfl
    | none => simp [safe_get, stepGet, hk]
  | obj m =>
    cases k with
    | str s =>
      simp only [safe_get, stepGet]
    | int i => rfl
    | bool b => rfl
  | null => rfl
  | bool b => rfl
  | num n => rfl
  | str s => rfl

theorem foldl_stepGet_none (ks : List PyKey) :
    ks.foldl (fun acc key => acc.bind (fun v => stepGet v key)) none = none := by
  induction ks with
  | nil => rfl
  | cons k rest ih => simpa using ih

/-- C2: safe_get is exactly the stepwise positional walk: starting from
the value, each key performs one stepGet descent (arrays on in-range
integer indices, objects on present keys, anything else absent), and a
failure at any step makes the whole walk absent - no exception, no
partially descended value. -/
theorem safe_get_stepwise_walk (data : JValue) (keys : List PyKey) :
    safe_get data keys =
      keys.foldl (fun acc key => acc.bind (fun v => stepGet v key)) (some data) := by
  induction keys generalizing data with
  | nil => rfl
  | cons k ks ih =>
    rw [List.foldl_cons, safe_get_cons]
    cases h : stepGet data k with
    | some v => simpa [h] using ih v
    | none => simp [h, foldl_stepGet_none]

theorem feed_scroll_loop_le (m : Nat) (obs : List FeedObs) :
    ∀ (links : List String) (h : Int) (cnt : Nat), links.length ≤ m →
      (feed_scroll_loop (some m) obs links h cnt).length ≤ m := by
  induction obs with
  | nil => intro links h cnt hle; exact hle
  | cons ob rest ih =>
    intro links h cnt hle
    rw [feed_scroll_loop]
    by_cases hmax : maxReachedFeed (some m) (addLinks links ob.links) = true
    · rw [if_pos hmax]
      simp
    · have hlt : (addLinks links ob.links).length ≤ m := by
        simp only [maxReachedFeed, decide_eq_true_eq] at hmax
        omega
      rw [if_neg hmax]
      by_cases hh : ob.height = h
      · rw [if_pos hh]
        cases hmark : ob.endMarker
        · rw [if_neg (by simp [hmark])]
          cases hnew : hasNew links ob.links
          · rw [if_pos (by simp [hnew])]
            by_cases hcnt : 5 ≤ cnt + 1
            · rw [if_pos hcnt]; exact hlt
            · rw [if_neg hcnt]; exact ih _ _ _ hlt
          · rw [if_neg (by simp [hnew])]; exact ih _ _ _ hlt
        · rw [if_pos rfl]; exact hlt
      · rw [if_neg hh]; exact ih _ _ _ hlt

/-- C3 counterexample: the global page-level fallback, asked for at most
1 link on a page exposing 2, returns both - the returned set exceeds the
caller-supplied maximum, so the bound does not hold under every
strategy. -/
theorem global_fallback_exceeds_max :
    collect_place_links_global (some 1) [[("a"), ("b")]] = [("a"), ("b")]
    ∧ ¬ ((collect_place_links_global (some 1) [[("a"), ("b")]]).length ≤ 1) := by
  constructor
  · rfl
  · decide

/-- C3 amended: the feed-scroll strategy's returned set has size at most
the caller-supplied maximum (it is trimmed when the merge overshoots);
the global page-level fallback merely stops collecting once the maximum
is reached: the already merged (untrimmed) set is returned as soon as
its size reaches the maximum, and it can exceed it. -/
theorem link_discovery_max_bound :
    (∀ (m : Nat) (h : Int) (obs : List FeedObs),
      (collect_place_links_feed (some m) h obs).length ≤ m)
    ∧ (∀ (m : Nat) (current : List String) (rest : List (List String)),
        m ≠ 0 → m ≤ (addLinks [] current).length →
        collect_place_links_global (some m) (current :: rest) = addLinks [] current) := by
  constructor
  · intro m h obs
    exact feed_scroll_loop_le m obs [] h 0 (by simp)
  · intro m current rest hm hlen
    have htrig : maxTrigGlobal (some m) (addLinks [] current) = true := by
      simp [maxTrigGlobal, hm, hlen]
    rw [collect_place_links_global, global_scroll_loop]
    simp [htrig]

/-- Witness for the amended discovery theorem: the feed strategy caps a
two-link page at one link, and the global fallback stops after its
first iteration once two links exceed the maximum of one. -/
theorem link_discovery_max_bound_witness :
    (collect_place_links_feed (some 1) 0 [⟨[("a"), ("b")], 0, false⟩]).length ≤ 1
    ∧ collect_place_links_global (some 1) [[("c"), ("d")]] = addLinks [] [("c"), ("d")] :=
  ⟨link_discovery_max_bound.1 1 0 [⟨[("a"), ("b")], 0, false⟩],
   link_discovery_max_bound.2 1 [("c"), ("d")] [] (by decide) (by decide)⟩

theorem nodeHit_ne_empty (v : JValue) (s : String) (h : nodeHit v = some s) : s ≠ "" := by
  cases v with
  | arr xs =>
    simp only [nodeHit] at h
    match xs, h with
    | (.str icon) :: (.str phone) :: _, h =>
      simp only [phoneHit] at h
      split at h
      · split at h
        · injection h with he
          subst he
          assumption
        · exact absurd h (by simp)
      · exact absurd h (by simp)
  | null => exact absurd h (by simp [nodeHit])
  | bool b => exact absurd h (by simp [nodeHit])
  | num n => exact absurd h (by simp [nodeHit])
  | str t => exact absurd h (by simp [nodeHit])
  | obj m => exact absurd h (by simp [nodeHit])

theorem firstHit_ne_empty (l : List JValue) (s : String)
    (h : (l.filterMap nodeHit).head? = some s) : s ≠ "" := by
  induction l with
  | nil => simp at h
  | cons x rest ih =>
    rw [List.filterMap_cons] at h
    cases hx : nodeHit x with
    | some p =>
      rw [hx] at h
      simp only [List.head?_cons] at h
      injection h with he
      rw [← he]
      exact nodeHit_ne_empty x p hx
    | none =>
      rw [hx] at h
      exact ih h

theorem firstHit_append (a b : List JValue) :
    ((a ++ b).filterMap nodeHit).head? =
      match ((a.filterMap nodeHit).head?) with
      | some s => some s
      | none => (b.filterMap nodeHit).head? := by
  rw [List.filterMap_append]
  cases ha : (a.filterMap nodeHit) with
  | nil => simp
  | cons x rest => simp

mutual

theorem findPhone_preorder : (v : JValue) →
    _find_phone_recursively v = ((preorder v).filterMap nodeHit).head?
  | .null => rfl
  | .bool _ => rfl
  | .num _ => rfl
  | .str _ => rfl
  | .arr xs => by
    rw [_find_phone_recursively, preorder]
    rw [List.filterMap_cons]
    cases hx : nodeHit (JValue.arr xs) with
    | some p =>
      simp only [nodeHit] at hx
      rw [hx]
      simp
    | none =>
      simp only [nodeHit] at hx
      rw [hx]
      simp only [List.head?_cons]
      exact findPhoneList_preorder xs
  | .obj m => by
    rw [_find_phone_recursively, preorder]
    rw [List.filterMap_cons]
    simp only [nodeHit]
    exact findPhoneObj_preorder m

theorem findPhoneList_preorder : (l : List JValue) →
    findPhoneList l = ((preorderList l).filterMap nodeHit).head?
  | [] => rfl
  | x :: rest => by
    rw [findPhoneList, preorderList, firstHit_append, ← findPhone_preorder x,
      ← findPhoneList_preorder rest]
    cases hx : _find_phone_recursively x with
    | some s =>
      have hs : s ≠ "" :=
        firstHit_ne_empty (preorder x) s (by rw [← findPhone_preorder x]; exact hx)
      simp [hs]
    | none => simp

theorem findPhoneObj_preorder : (o : List (String × JValue)) →
    findPhoneObj o = ((preorderObj o).filterMap nodeHit).head?
  | [] => rfl
  | (k, v) :: rest => by
    rw [findPhoneObj, preorderObj, firstHit_append, ← findPhone_preorder v,
      ← findPhoneObj_preorder rest]
    cases hv : _find_phone_recursively v with
    | some s =>
      have hs : s ≠ "" :=
        firstHit_ne_empty (preorder v) s (by rw [← findPhone_preorder v]; exact hv)
      simp [hs]
    | none => simp

end

/-- C8: the phone lookup equals taking the first hit of the pre-order
(depth-first) enumeration of the payload: the first array node - in
traversal order - whose first element is a marker-bearing string and
whose second element is a string with a non-empty digit-stripped form
yields that form, and nothing later is consulted; with no such node the
result is absent. -/
theorem phone_lookup_first_preorder_hit (data_blob : JValue) :
    get_phone_number data_blob = ((preorder data_blob).filterMap nodeHit).head? := by
  rw [get_phone_number, findPhone_preorder data_blob]
  cases h : ((preorder data_blob).filterMap nodeHit).head? with
  | none => rfl
  | some s =>
    have hs : s ≠ "" := firstHit_ne_empty (preorder data_blob) s h
    simp [hs]

theorem nodeHit_digits (v : JValue) (s : String) (h : nodeHit v = some s) :
    s.toList.all Char.isDigit = true := by
  cases v with
  | arr xs =>
    simp only [nodeHit] at h
    match xs, h with
    | (.str icon) :: (.str phone) :: _, h =>
      simp only [phoneHit] at h
      split at h
      · split at h
        · injection h with he
          rw [← he]
          exact List.all_eq_true.mpr (fun c hc => (List.mem_filter.mp hc).2)
        · exact absurd h (by simp)
      · exact absurd h (by simp)
  | null => exact absurd h (by simp [nodeHit])
  | bool b => exact absurd h (by simp [nodeHit])
  | num n => exact absurd h (by simp [nodeHit])
  | str t => exact absurd h (by simp [nodeHit])
  | obj m => exact absurd h (by simp [nodeHit])

theorem firstHit_digits (l : List JValue) (s : String)
    (h : (l.filterMap nodeHit).head? = some s) : s.toList.all Char.isDigit = true := by
  induction l with
  | nil => simp at h
  | cons x rest ih =>
    rw [List.filterMap_cons] at h
    cases hx : nodeHit x with
    | some p =>
      rw [hx] at h
      simp only [List.head?_cons] at h
      injection h with he
      rw [← he]
      exact nodeHit_digits x p hx
    | none =>
      rw [hx] at h
      exact ih h

/-- C9 counterexample: the JSON phone path accepts the one-digit phone
"5" (no minimum-length check exists on that path), and the DOM phone
path accepts a value with interior plus signs, so neither "minimum
accepted length 7 in both paths" nor "only an optional single leading
plus" holds as stated. -/
theorem phone_accepts_below_min_length :
    get_phone_number (.arr [.str ("call_googblue"), .str ("5")]) = some ("5")
    ∧ ¬ 7 ≤ ("5" : String).length
    ∧ dom_extract_phone [("12+34+567")] = some ("12+34+567")
    ∧ (((("12+34+567") : String).drop 1).toList.all Char.isDigit) = false :=
  ⟨rfl, by decide, rfl, by decide⟩

/-- C9 amended: a phone produced by the JSON path is a non-empty string
of digits only (accepted whenever non-empty, with no minimum length);
a phone produced by the DOM path consists of digits and plus signs
(a plus may also occur in the interior) and is accepted only when its
normalised length is at least 7. -/
theorem phone_normalization (data_blob : JValue) (texts : List String) :
    (∀ s, get_phone_number data_blob = some s →
      s ≠ "" ∧ s.toList.all Char.isDigit = true)
    ∧ (∀ s, dom_extract_phone texts = some s →
      s.toList.all isPhoneKeep = true ∧ 7 ≤ s.length) := by
  constructor
  · intro s h
    cases hf : _find_phone_recursively data_blob with
    | none => rw [get_phone_number, hf] at h; exact absurd h (by simp)
    | some found =>
      simp only [get_phone_number, hf] at h
      by_cases he : found = ""
      · rw [if_pos he] at h; exact absurd h (by simp)
      · rw [if_neg he] at h
        injection h with he2
        rw [← he2]
        have hpre : ((preorder data_blob).filterMap nodeHit).head? = some found := by
          rw [← findPhone_preorder data_blob]; exact hf
        exact ⟨he, firstHit_digits _ found hpre⟩
  · induction texts with
    | nil => intro s h; exact absurd h (by simp [dom_extract_phone])
    | cons t rest ih =>
      intro s h
      by_cases hc : pyCleanPhone t ≠ "" ∧ 7 ≤ (pyCleanPhone t).length
      · rw [dom_extract_phone, if_pos hc] at h
        injection h with he
        rw [← he]
        refine ⟨?_, hc.2⟩
        exact List.all_eq_true.mpr (fun c hcm => (List.mem_filter.mp hcm).2)
      · rw [dom_extract_phone, if_neg hc] at h
        exact ih s h

/-- Witness for the amended phone theorem: "1a2b3" strips to the all
digit "123" on the JSON path, and "+49 30 123456" normalises to
"+4930123456" (length 11) on the DOM path. -/
theorem phone_normalization_witness :
    (("123") ≠ "" ∧ ("123" : String).toList.all Char.isDigit = true)
    ∧ (("+4930123456" : String).toList.all isPhoneKeep = true ∧ 7 ≤ ("+4930123456" : String).length) :=
  ⟨(phone_normalization (.arr [.str ("call_googblue"), .str ("1a2b3")]) []).1 ("123") rfl,
   (phone_normalization .null [("+49 30 123456")]).2 ("+4930123456") rfl⟩

/-- Boolean success view of an Except result. -/
def exceptIsOk {α : Type} : Except String α → Bool
  | .ok _ => true
  | .error _ => false

/-- Exact characterisation of the address-join failure: get_complete_address
raises precisely when offset 2 resolves to an array whose truthy-filtered
elements contain a non-string. -/
def addrRaises (data_blob : JValue) : Bool :=
  match safe_get data_blob [PyKey.int 2] with
  | some (.arr parts) => (strsOf (parts.filter jTruthy)).isNone
  | _ => false

/-- C6 counterexample: on the decoded payload whose offset-2 element is
the array [5], the join inside get_complete_address raises TypeError
and the exception escapes extract_place_data's field assembly, so the
extraction does not absorb every field-level failure. -/
theorem extract_raises_on_nonstring_address :
    extract_place_data_core (.arr [.null, .null, .arr [.num 5]]) = .error ("TypeError")
    ∧ exceptIsOk (extract_place_data_core (.arr [.null, .null, .arr [.num 5]])) = false :=
  ⟨rfl, rfl⟩

/-- C6 amended: the field assembly of extract_place_data fails exactly
when the address join fails, namely exactly when the offset-2 element is
an array whose truthy-filtered elements include a non-string; every
other accessor failure is absorbed into absence of the field. -/
theorem extract_failure_exactly_address_join (data_blob : JValue) :
    exceptIsOk (extract_place_data_core data_blob) = exceptIsOk (get_complete_address data_blob)
    ∧ (exceptIsOk (get_complete_address data_blob) = false ↔ addrRaises data_blob = true) := by
  constructor
  · rw [extract_place_data_core]
    cases h : get_complete_address data_blob with
    | error e => rfl
    | ok a => rfl
  · rw [get_complete_address, addrRaises]
    cases hs : safe_get data_blob [PyKey.int 2] with
    | none => simp [exceptIsOk]
    | some v =>
      cases v with
      | arr parts =>
        cases hstr : strsOf (parts.filter jTruthy) with
        | some ss => simp [pyJoin, hstr, exceptIsOk]
        | none => simp [pyJoin, hstr, exceptIsOk]
      | null => simp [exceptIsOk]
      | bool b => simp [exceptIsOk]
      | num n => simp [exceptIsOk]
      | str s => simp [exceptIsOk]
      | obj m => simp [exceptIsOk]

/-- C1 (evidence for the missing DOM fallback): on a fetched markup with
no embedded application state (extract_place_data yields no record), the
orchestrator's per-link step leaves the result list unchanged for every
possible decoder - the link is skipped outright - even though the DOM
name extractor would succeed on the very page (its heading reads "Cafe
Mocha"); extract_place_data_dom is never invoked by scrape_google_maps. -/
theorem per_link_loop_skips_without_dom_fallback :
    (∀ (decode : String → Option JValue) (results : List (List (String × JValue)))
        (link : String),
      process_link decode results link ("<html><body><h1>Cafe Mocha</h1></body></html>") =
        results)
    ∧ dom_extract_name [("Cafe Mocha")] [] = some ("Cafe Mocha") := by
  constructor
  · intro decode results link
    have h : extract_initial_json ("<html><body><h1>Cafe Mocha</h1></body></html>") = none :=
      rfl
    simp only [process_link, extract_place_data, h]
  · rfl
